import Mathlib

/-!
Verification development for the TIFF batch-conversion tool
(`grupoapi-cambioformatoimagenes`).

The Lean definitions below are a shallow embedding of the Python sources:

* `src/src/converter.py` — `TIFFConverter._process_subfolder`,
  `TIFFConverter.convert_directory`, `TIFFConverter._generate_final_result`;
* `src/src/file_processor.py` — `FileProcessor.validate_output_path`;
* `src/src/converters/pdf_easyocr_converter.py` —
  `PDFEasyOCRConverter._create_pdf_with_easyocr`,
  `PDFEasyOCRConverter._process_easyocr_results`;
* `src/src/converters/jpg_resolution_converter.py` —
  `JPGResolutionConverter.__init__`;
* `src/src/postconverters/consolidated_pdf_postconverter.py` —
  `ConsolidatedPDFPostconverter._calculate_files_per_pdf`,
  `_consolidate_tiff_to_pdf`, `_create_multiple_pdfs`, `process`;
* `src/src/postconverters/met_format_postconverter.py` —
  `METFormatPostConverter._prepare_conversion_results`,
  `_has_files_for_format`, `_create_format_met_file`,
  `_generate_format_met_xml`, `_create_format_specific_met_for_subfolder`.

Filesystem and external-library effects (file existence, write permission,
converter success/failure/exception, artifact sizes) are modelled as explicit
environment parameters.  Python float arithmetic on coordinates and sizes is
modelled over `ℚ`; every concrete value used in the theorems below is exactly
representable in binary floating point, so the ℚ model agrees with the float
computation at those points.
-/

/-! ### JPG quality initialisation (`JPGResolutionConverter.__init__`) -/

/-- Effective JPEG quality computed by `JPGResolutionConverter.__init__`
(`src/src/converters/jpg_resolution_converter.py`, lines 14–29).
`cfgQuality = none` models a configuration with no `quality` key
(`config.get('quality', -1)` then yields the sentinel `-1`); `some q`
models an explicit `quality: q` entry.  The Python code is:
`quality = config.get('quality', -1)`; `if quality == -1:` derive from
`dpi` (`95` for `dpi >= 400`, `90` for `dpi >= 200`, otherwise the
sentinel is kept); `else: quality = 95`. -/
def initJpgQuality (cfgQuality : Option ℤ) (dpi : ℤ) : ℤ :=
  let q := cfgQuality.getD (-1)
  if q = -1 then
    if 400 ≤ dpi then 95
    else if 200 ≤ dpi then 90
    else q
  else 95

/-! ### PDF/EasyOCR converter (`pdf_easyocr_converter.py`) -/

/-- Configuration slice of `PDFEasyOCRConverter` relevant to page sizing and
text placement: `embedTargetDpi` models `self.embed_target_dpi`
(`compression.target_dpi`, falling back to `resolution`, default `300`), and
`ocrConfidence` models `self.ocr_confidence` (default `0.5`). -/
structure PdfConverterConfig where
  embedTargetDpi : ℕ
  ocrConfidence : ℚ
deriving DecidableEq

/-- DPI actually used for page sizing in `_create_pdf_with_easyocr`
(line 215): `dpi = int(self.embed_target_dpi) if self.embed_target_dpi
else 300` — a falsy (zero) configured value falls back to 300. -/
def effectiveEmbedDpi (c : PdfConverterConfig) : ℕ :=
  if c.embedTargetDpi = 0 then 300 else c.embedTargetDpi

/-- Quadrilateral bounding box returned by EasyOCR for one recognized text
span, in source-image pixel coordinates (origin top-left). -/
structure OcrBBox where
  p1 : ℚ × ℚ
  p2 : ℚ × ℚ
  p3 : ℚ × ℚ
  p4 : ℚ × ℚ
deriving DecidableEq

/-- Minimum x coordinate of the box (`min(x_coords)` in the Python code). -/
def OcrBBox.minX (b : OcrBBox) : ℚ := min b.p1.1 (min b.p2.1 (min b.p3.1 b.p4.1))

/-- Maximum x coordinate of the box (`max(x_coords)`). -/
def OcrBBox.maxX (b : OcrBBox) : ℚ := max b.p1.1 (max b.p2.1 (max b.p3.1 b.p4.1))

/-- Minimum y coordinate of the box (`min(y_coords)`). -/
def OcrBBox.minY (b : OcrBBox) : ℚ := min b.p1.2 (min b.p2.2 (min b.p3.2 b.p4.2))

/-- Maximum y coordinate of the box (`max(y_coords)`). -/
def OcrBBox.maxY (b : OcrBBox) : ℚ := max b.p1.2 (max b.p2.2 (max b.p3.2 b.p4.2))

/-- One raw EasyOCR result tuple `(bbox, text, confidence)`. -/
structure OcrSpan where
  bbox : OcrBBox
  text : String
  confidence : ℚ
deriving DecidableEq

/-- Text element placed in the PDF's invisible text layer, as built by
`_process_easyocr_results`. -/
structure TextElement where
  text : String
  x : ℚ
  y : ℚ
  width : ℚ
  height : ℚ
  confidence : ℚ
deriving DecidableEq

/-- Scale factor hard-coded inside `_process_easyocr_results`
(`src/src/converters/pdf_easyocr_converter.py`, lines 332–334):
`dpi = 300; points_per_inch = 72; scale_factor = points_per_inch / dpi`.
Note this local `dpi` is a literal `300`, independent of the converter's
configured DPI. -/
def easyocrScaleFactor : ℚ := 72 / 300

/-- Text element built from one span (`_process_easyocr_results`,
lines 326–353): `pdf_x = min(x_coords) * scale_factor`,
`pdf_y = (img_height - max(y_coords)) * scale_factor` (Y flipped because
ReportLab's page origin is bottom-left), width and height scaled the same
way. -/
def spanToTextElement (imgHeight : ℚ) (r : OcrSpan) : TextElement :=
  { text := r.text
    x := r.bbox.minX * easyocrScaleFactor
    y := (imgHeight - r.bbox.maxY) * easyocrScaleFactor
    width := (r.bbox.maxX - r.bbox.minX) * easyocrScaleFactor
    height := (r.bbox.maxY - r.bbox.minY) * easyocrScaleFactor
    confidence := r.confidence }

/-- `PDFEasyOCRConverter._process_easyocr_results` (lines 308–355): keeps the
spans with `confidence >= self.ocr_confidence` and maps each to a positioned
text element; spans below the threshold are dropped. -/
def processEasyocrResults (ocrConfidence : ℚ) (imgHeight : ℚ)
    (results : List OcrSpan) : List TextElement :=
  (results.filter (fun r => ocrConfidence ≤ r.confidence)).map
    (spanToTextElement imgHeight)

/-- Image-size cap applied before OCR and page sizing
(`_create_pdf_with_easyocr`, lines 197–210): if either dimension exceeds
2048 px the image is downscaled by
`min(2048/width, 2048/height)`, each new dimension truncated with `int(...)`. -/
def ocrResize (w h : ℕ) : ℕ × ℕ :=
  if 2048 < w ∨ 2048 < h then
    let s : ℚ := min ((2048 : ℚ) / w) ((2048 : ℚ) / h)
    (Int.toNat ⌊(w : ℚ) * s⌋, Int.toNat ⌊(h : ℚ) * s⌋)
  else (w, h)

/-- Page size in points chosen by `_create_pdf_with_easyocr`
(lines 212–224): after the optional 2048-px downscale, the page is
`page_width = img_width * (72 / dpi)`, `page_height = img_height * (72 / dpi)`
with `dpi = effectiveEmbedDpi`. -/
def pdfPageSize (c : PdfConverterConfig) (w h : ℕ) : ℚ × ℚ :=
  let wh := ocrResize w h
  let dpi : ℚ := (effectiveEmbedDpi c : ℚ)
  ((wh.1 : ℚ) * (72 / dpi), (wh.2 : ℚ) * (72 / dpi))

/-! ### Orchestrator (`converter.py` and `file_processor.py`)

`FileProcessor.add_conversion_result` / `get_conversion_results` are called
from `converter.py` but absent from the repository snapshot (the
`FileProcessor` in `src/src/file_processor.py` is an earlier revision without
them).  Modelled from the spec: the per-folder `ConversionOutcome` collection
is an append-only list, one append per `add_conversion_result` call. -/

/-- One `(file, format)` conversion task of the task matrix. -/
structure ConvTask where
  file : String
  fmt : String
deriving DecidableEq

/-- Result of one converter invocation: `convert` returned `True`, returned
`False`, or raised an exception with a message. -/
inductive ConvOutcome where
  | ok : ConvOutcome
  | fail : ConvOutcome
  | exc : String → ConvOutcome
deriving DecidableEq

/-- Does the outcome model `convert` returning `True`? -/
def ConvOutcome.isOk : ConvOutcome → Bool
  | ConvOutcome.ok => true
  | _ => false

/-- Environment of one folder's processing: filesystem state and converter
behaviour per task. -/
structure ConvEnv where
  outputExists : ConvTask → Bool
  writable : ConvTask → Bool
  outPath : ConvTask → String
  convert : ConvTask → ConvOutcome

/-- `FileProcessor.validate_output_path`
(`src/src/file_processor.py`, lines 144–182): an existing output path is
rejected unless `overwrite` is set; otherwise the result is the outcome of
the write-permission probe (`writable`, which also absorbs the surrounding
`except` branch returning `False`). -/
def validateOutputPath (outputExists overwrite writable : Bool) : Bool :=
  if outputExists && !overwrite then false else writable

/-- Does a task pass `validate_output_path` in environment `env`? -/
def taskValidated (env : ConvEnv) (overwrite : Bool) (t : ConvTask) : Bool :=
  validateOutputPath (env.outputExists t) overwrite (env.writable t)

/-- One recorded conversion result, i.e. the dict passed to
`file_processor.add_conversion_result` in `_process_subfolder`
(lines 312–339): input file, output path, format, success flag, and the
exception message when one was caught. -/
structure OutcomeRec where
  input : String
  output : String
  fmt : String
  success : Bool
  error : Option String
deriving DecidableEq

/-- The record `_process_subfolder` appends for a task that ran: success on
`ConvOutcome.ok`, failure (without message) on a `False` return, failure with
the caught message on an exception. -/
def taskOutcome (env : ConvEnv) (t : ConvTask) : OutcomeRec :=
  match env.convert t with
  | ConvOutcome.ok =>
      { input := t.file, output := env.outPath t, fmt := t.fmt,
        success := true, error := none }
  | ConvOutcome.fail =>
      { input := t.file, output := env.outPath t, fmt := t.fmt,
        success := false, error := none }
  | ConvOutcome.exc msg =>
      { input := t.file, output := env.outPath t, fmt := t.fmt,
        success := false, error := some msg }

/-- Mutable state threaded through `_process_subfolder`'s double loop:
the two counters, the recorded results (`add_conversion_result`), and the
list of tasks whose converter was actually invoked (`converter.convert`
call sites), kept to state non-invocation of skipped tasks. -/
structure SubfolderState where
  successful : ℕ
  failed : ℕ
  results : List OutcomeRec
  invoked : List ConvTask
deriving DecidableEq

/-- Body of `_process_subfolder`'s inner loop
(`src/src/converter.py`, lines 290–341) for one `(file, format)` task:
a task failing `validate_output_path` only bumps `failed_conversions`
(the `continue` branch records no result); otherwise the converter runs and
exactly one result is recorded, the exception case catching the error. -/
def processTask (env : ConvEnv) (overwrite : Bool)
    (st : SubfolderState) (t : ConvTask) : SubfolderState :=
  if !taskValidated env overwrite t then
    { st with failed := st.failed + 1 }
  else
    match env.convert t with
    | ConvOutcome.ok =>
        { st with
          successful := st.successful + 1
          results := st.results ++
            [{ input := t.file, output := env.outPath t, fmt := t.fmt,
               success := true, error := none }]
          invoked := st.invoked ++ [t] }
    | ConvOutcome.fail =>
        { st with
          failed := st.failed + 1
          results := st.results ++
            [{ input := t.file, output := env.outPath t, fmt := t.fmt,
               success := false, error := none }]
          invoked := st.invoked ++ [t] }
    | ConvOutcome.exc msg =>
        { st with
          failed := st.failed + 1
          results := st.results ++
            [{ input := t.file, output := env.outPath t, fmt := t.fmt,
               success := false, error := some msg }]
          invoked := st.invoked ++ [t] }

/-- The `(file × format)` task matrix in the iteration order of
`_process_subfolder`'s nested loops (`for tiff_file in tiff_files: for
format_name in formats:`). -/
def taskMatrix (files fmts : List String) : List ConvTask :=
  files.flatMap (fun f => fmts.map (fun m => ⟨f, m⟩))

/-- Return value of `_process_subfolder` (lines 264–271 and 343–350), with
the recorded results and invoked-converter list carried alongside. -/
structure SubfolderResult where
  success : Bool
  error : Option String
  files_processed : ℕ
  conversions_successful : ℕ
  conversions_failed : ℕ
  results : List OutcomeRec
  invoked : List ConvTask
deriving DecidableEq

/-- `TIFFConverter._process_subfolder` (`src/src/converter.py`,
lines 239–350): an empty file list returns a failure dict; otherwise all
`(file, format)` tasks run in order and the success dict carries the two
counters.  Every exception is caught inside the loop, so the function
itself never raises. -/
def processSubfolder (env : ConvEnv) (overwrite : Bool)
    (files fmts : List String) : SubfolderResult :=
  if files.isEmpty then
    { success := false, error := some "No se encontraron archivos TIFF",
      files_processed := 0, conversions_successful := 0,
      conversions_failed := 0, results := [], invoked := [] }
  else
    let st := (taskMatrix files fmts).foldl (processTask env overwrite)
      ⟨0, 0, [], []⟩
    { success := true, error := none, files_processed := files.length,
      conversions_successful := st.successful,
      conversions_failed := st.failed,
      results := st.results, invoked := st.invoked }

/-- Records produced for a task list: one per task that passes validation,
in task order (derived shape of the fold; proved equal to it below). -/
def taskRecords (env : ConvEnv) (overwrite : Bool)
    (l : List ConvTask) : List OutcomeRec :=
  (l.filter (taskValidated env overwrite)).map (taskOutcome env)

/-- Number of tasks counted in `successful_conversions`. -/
def succCount (env : ConvEnv) (overwrite : Bool) (l : List ConvTask) : ℕ :=
  l.countP (fun t => taskValidated env overwrite t && (env.convert t).isOk)

/-- Number of tasks counted in `failed_conversions` (validation failures
plus converter failures and exceptions). -/
def failCount (env : ConvEnv) (overwrite : Bool) (l : List ConvTask) : ℕ :=
  l.countP (fun t => !(taskValidated env overwrite t && (env.convert t).isOk))

/-- One input folder of `convert_directory`: eligible folder name and its
source files. -/
structure FolderSpec where
  name : String
  files : List String
deriving DecidableEq

/-- Final run report assembled by `TIFFConverter._generate_final_result`
(`src/src/converter.py`, lines 394–437). -/
structure FinalResult where
  success : Bool
  subfolders_processed : ℕ
  subfolders_successful : ℕ
  subfolders_failed : ℕ
  total_files_processed : ℕ
  total_conversions_successful : ℕ
  total_conversions_failed : ℕ
  subfolder_results : List (String × SubfolderResult)
  error_report : List (String × List String)
deriving DecidableEq

/-- `TIFFConverter._generate_final_result`: every folder in
`subfolder_results` counts as successful, only folders with a non-empty
entry in `error_report` count as failed, and the run is a success when at
least one folder reached `subfolder_results`. -/
def generateFinalResult (subResults : List (String × SubfolderResult))
    (errorReport : List (String × List String)) : FinalResult :=
  { success := decide (0 < subResults.length)
    subfolders_processed := subResults.length + errorReport.length
    subfolders_successful := subResults.length
    subfolders_failed := (errorReport.filter (fun p => !p.2.isEmpty)).length
    total_files_processed := (subResults.map (fun p => p.2.files_processed)).sum
    total_conversions_successful :=
      (subResults.map (fun p => p.2.conversions_successful)).sum
    total_conversions_failed :=
      (subResults.map (fun p => p.2.conversions_failed)).sum
    subfolder_results := subResults
    error_report := errorReport }

/-- One step of the folder loop in `TIFFConverter.convert_directory`
(lines 174–212): a folder whose output structure cannot be created goes to
`error_report` and is skipped (`continue`); otherwise `_process_subfolder`
runs and its result is stored under the folder's name.
`structOk` models `create_output_structure_for_subfolder` (modelled from the
spec: the method is absent from the snapshot's `FileProcessor`; per the spec
it only creates directories and reports success). -/
def folderStep (env : ConvEnv) (overwrite : Bool) (fmts : List String)
    (structOk : String → Bool)
    (acc : List (String × SubfolderResult) × List (String × List String))
    (fs : FolderSpec) :
    List (String × SubfolderResult) × List (String × List String) :=
  if structOk fs.name then
    (acc.1 ++ [(fs.name, processSubfolder env overwrite fs.files fmts)], acc.2)
  else
    (acc.1, acc.2 ++ [(fs.name, ["Error creando estructura de salida"])])

/-- Folder loop of `TIFFConverter.convert_directory` followed by
`_generate_final_result`: processes every folder in order and assembles the
run report.  Exceptions cannot escape `processSubfolder` (all are caught
per task), so the per-folder `except` branch of the source is unreachable
in this model. -/
def convertDirectory (env : ConvEnv) (overwrite : Bool)
    (structOk : String → Bool) (folders : List FolderSpec)
    (fmts : List String) : FinalResult :=
  let acc := folders.foldl (folderStep env overwrite fmts structOk) ([], [])
  generateFinalResult acc.1 acc.2

/-! ### Consolidated PDF postconverter (`consolidated_pdf_postconverter.py`) -/

/-- Lexicographic comparison of char lists by code point, the order Python
uses when comparing the `str` sort keys. -/
def lowerLeChars : List Char → List Char → Bool
  | [], _ => true
  | _ :: _, [] => false
  | x :: xs, y :: ys =>
      if x < y then true else if y < x then false else lowerLeChars xs ys

/-- Comparison used by `process` (line 85):
`tiff_files.sort(key=lambda x: x.name.lower())` — ascending by
lower-cased file name. -/
def lowerLe (a b : String) : Bool :=
  lowerLeChars (a.data.map Char.toLower) (b.data.map Char.toLower)

/-- `ConsolidatedPDFPostconverter._calculate_files_per_pdf`
(lines 201–224): `estimated_mb_per_file = 3.0`;
`files_per_pdf = max(1, int(max_size_mb / estimated_mb_per_file))` —
floor division by the fixed 3 MB estimate, clamped below by 1. -/
def calculateFilesPerPdf (maxSizeMB : ℕ) : ℕ :=
  max 1 (maxSizeMB / 3)

/-- Consecutive chunks of `k` elements, via the slice loop
`for i in range(0, len(files), k): files[i : i + k]` of
`_create_multiple_pdfs` (lines 319–320).  The extra fuel argument makes the
recursion structural; `chunkSlices` instantiates it with the list length,
which suffices whenever `1 ≤ k`. -/
def chunkSlicesGo (k : ℕ) : ℕ → List α → List (List α)
  | _, [] => []
  | 0, _ :: _ => []
  | fuel + 1, x :: xs => (x :: xs).take k :: chunkSlicesGo k fuel ((x :: xs).drop k)

/-- The chunk list `[files[0:k], files[k:2k], ...]`. -/
def chunkSlices (k : ℕ) (l : List α) : List (List α) :=
  chunkSlicesGo k l.length l

/-- Two-digit sequence suffix `f"{n:02d}"` used in the multi-PDF names. -/
def padTwo (n : ℕ) : String :=
  if n < 10 then "0" ++ toString n else toString n

/-- Output-document plan of
`ConsolidatedPDFPostconverter._consolidate_tiff_to_pdf` (lines 166–199)
together with `_create_single_pdf` (line 241) and `_create_multiple_pdfs`
(lines 296–376): given the ordered file list, either one output
`<folder>_consolidated.pdf` holding every file (when `files_per_pdf >=
total_files`), or one output `<folder>_NN.pdf` per consecutive chunk of
`files_per_pdf` files.  The plan records which source file is assigned to
which output document. -/
def consolidatePlan (folder : String) (maxSizeMB : ℕ)
    (files : List String) : List (String × List String) :=
  if files.isEmpty then []
  else
    let k := calculateFilesPerPdf maxSizeMB
    if files.length ≤ k then
      [(folder ++ "_consolidated.pdf", files)]
    else
      (chunkSlices k files).enum.map
        (fun ic => (folder ++ "_" ++ padTwo (ic.1 + 1) ++ ".pdf", ic.2))

/-- `ConsolidatedPDFPostconverter.process` (lines 51–109) restricted to its
planning content: sort the folder's files ascending by lower-cased name
(line 85), then consolidate. -/
def consolidateProcess (folder : String) (maxSizeMB : ℕ)
    (files : List String) : List (String × List String) :=
  consolidatePlan folder maxSizeMB (List.mergeSort files lowerLe)

/-! ### MET metadata postconverter (`met_format_postconverter.py`) -/

/-- One entry of `conversion_result["files_info"]`: the outcome dict recorded
by the orchestrator for one `(file, format)` task. -/
structure FileInfoEntry where
  input : String
  output : String
  fmt : String
  success : Bool
deriving DecidableEq

/-- One artifact reference inside a prepared result (`output_files` item). -/
structure OutputFileRec where
  fmt : String
  path : String
  size : ℕ
deriving DecidableEq

/-- One element of the list produced by `_prepare_conversion_results`. -/
structure PreparedResult where
  input : String
  output_files : List OutputFileRec
  success : Bool
deriving DecidableEq

/-- `METFormatPostConverter._prepare_conversion_results`
(`src/src/postconverters/met_format_postconverter.py`, lines 103–145):
per entry, a successful outcome contributes its single artifact (with the
artifact's on-disk size, modelled by `size`), a failed outcome contributes
an empty `output_files`; the prepared `success` flag is
`len(output_files) > 0`. -/
def prepareConversionResults (size : String → ℕ)
    (filesInfo : List FileInfoEntry) : List PreparedResult :=
  filesInfo.map (fun e =>
    let ofs : List OutputFileRec :=
      if e.success then [{ fmt := e.fmt, path := e.output, size := size e.output }]
      else []
    { input := e.input, output_files := ofs, success := !ofs.isEmpty })

/-- Filter loop of `_create_format_met_file` (lines 305–316): the
`(input_file, output_file)` pairs of successful results whose artifact has
the requested format.  This list is what the function hands to the XML
serializer. -/
def formatResults (prepared : List PreparedResult) (F : String) :
    List (String × OutputFileRec) :=
  prepared.flatMap (fun r =>
    if r.success then
      (r.output_files.filter (fun o => o.fmt == F)).map (fun o => (r.input, o))
    else [])

/-- `METFormatPostConverter._has_files_for_format` (lines 274–283). -/
def hasFilesForFormat (prepared : List PreparedResult) (F : String) : Bool :=
  prepared.any (fun r => r.success && r.output_files.any (fun o => o.fmt == F))

/-- Data content of the `<F>.xml` document written for a format: the header
identities and the source files referenced by `file` elements inside its
`fileSec`. -/
structure FormatMetXml where
  fmt : String
  subfolder : String
  fileReferences : List String
deriving DecidableEq

/-- `METFormatPostConverter._generate_format_met_xml` (lines 348–387): the
serializer on the live per-subfolder path.  It receives `format_results`
but never uses it — the body is marked `placeholder` in the source and
emits a fixed METS template whose `fileGrp` holds only an XML comment — so
the emitted document references no source file, whatever pairs were
selected. -/
def generateFormatMetXml (formatRes : List (String × OutputFileRec))
    (F subfolder : String) : FormatMetXml :=
  let _ := formatRes
  { fmt := F, subfolder := subfolder, fileReferences := [] }

/-- `METFormatPostConverter._create_format_met_file` (lines 285–346):
`none` when no pair matches (the function returns `False` and writes
nothing), otherwise the `<F>.xml` record produced by
`_generate_format_met_xml` from the selected pairs. -/
def createFormatMetFile (prepared : List PreparedResult)
    (F subfolder : String) : Option FormatMetXml :=
  let fr := formatResults prepared F
  if fr.isEmpty then none else some (generateFormatMetXml fr F subfolder)

/-- Per-format gate of `_create_format_specific_met_for_subfolder`
(lines 244–255): the MET file for a format is only attempted when
`_has_files_for_format` holds. -/
def formatMetForSubfolder (prepared : List PreparedResult)
    (F subfolder : String) : Option FormatMetXml :=
  if hasFilesForFormat prepared F then createFormatMetFile prepared F subfolder
  else none

/-! ## Theorems -/

/-! ### C10 — JPG quality handling -/

/-- C10 (counterexample): the claim states that only when `quality` is left
unset does the converter derive quality from DPI.  But an explicit
`quality: -1` also derives from DPI: with `quality = -1` configured, the
effective quality is 95 at 400 DPI and 90 at 250 DPI, so a configured
(non-unset) quality value varies with DPI, refuting the claim as stated. -/
theorem jpg_quality_explicit_minus_one_derives_from_dpi :
    initJpgQuality (some (-1)) 400 = 95 ∧
    initJpgQuality (some (-1)) 250 = 90 ∧
    initJpgQuality (some (-1)) 250 ≠ initJpgQuality (some (-1)) 400 := by
  refine ⟨by decide, by decide, by decide⟩

/-- C10 (amended): any explicit `quality` other than -1 is replaced by 95
regardless of its value; when `quality` is unset or explicitly -1 the
quality is derived from DPI: 95 for `dpi ≥ 400` and 90 for
`200 ≤ dpi < 400`. -/
theorem jpg_quality_handling (q dpi : ℤ) (hq : q ≠ -1) :
    initJpgQuality (some q) dpi = 95
    ∧ (400 ≤ dpi →
        initJpgQuality none dpi = 95 ∧ initJpgQuality (some (-1)) dpi = 95)
    ∧ (200 ≤ dpi → dpi < 400 →
        initJpgQuality none dpi = 90 ∧ initJpgQuality (some (-1)) dpi = 90) := by
  refine ⟨?_, fun h4 => ?_, fun h2 h4 => ?_⟩
  · simp [initJpgQuality, hq]
  · constructor <;> simp [initJpgQuality] <;> omega
  · constructor <;> simp [initJpgQuality] <;> omega

/-- C10 (witness): the amended theorem applied at `quality = 80`,
`dpi = 250`. -/
theorem jpg_quality_handling_witness :
    initJpgQuality (some 80) 250 = 95 ∧ initJpgQuality none 250 = 90 := by
  have h := jpg_quality_handling 80 250 (by decide)
  exact ⟨h.1, (h.2.2 (by decide) (by decide)).1⟩

/-! ### C9 — confidence threshold filtering -/

/-- C9: `_process_easyocr_results` keeps exactly the spans whose confidence
is at or above the configured threshold: the output is the map of the
placement function over the filtered spans, every placed element stems from
an at-or-above-threshold span, every at-or-above-threshold span is placed,
and the number of placed elements is the number of spans meeting the
threshold (so spans strictly below it never appear). -/
theorem ocr_confidence_threshold (thr imgH : ℚ) (results : List OcrSpan) :
    processEasyocrResults thr imgH results
      = (results.filter (fun r => thr ≤ r.confidence)).map (spanToTextElement imgH)
    ∧ (∀ e ∈ processEasyocrResults thr imgH results,
        ∃ r ∈ results, thr ≤ r.confidence ∧ e = spanToTextElement imgH r)
    ∧ (∀ r ∈ results, thr ≤ r.confidence →
        spanToTextElement imgH r ∈ processEasyocrResults thr imgH results)
    ∧ (processEasyocrResults thr imgH results).length
      = results.countP (fun r => decide (thr ≤ r.confidence)) := by
  refine ⟨rfl, ?_, ?_, ?_⟩
  · intro e he
    simp only [processEasyocrResults, List.mem_map, List.mem_filter,
      decide_eq_true_eq] at he
    obtain ⟨r, ⟨hr, hc⟩, he⟩ := he
    exact ⟨r, hr, hc, he.symm⟩
  · intro r hr hc
    simp only [processEasyocrResults, List.mem_map]
    exact ⟨r, List.mem_filter.mpr ⟨hr, by simpa using hc⟩, rfl⟩
  · simp [processEasyocrResults, List.countP_eq_length_filter]

/-- C9 (witness): with threshold 1/2, a span of confidence 9/10 is placed. -/
theorem ocr_confidence_threshold_witness :
    spanToTextElement 100 ⟨⟨(3, 4), (5, 4), (5, 9), (3, 9)⟩, "hola", 9/10⟩
      ∈ processEasyocrResults (1/2) 100
        [⟨⟨(3, 4), (5, 4), (5, 9), (3, 9)⟩, "hola", 9/10⟩] := by
  refine (ocr_confidence_threshold (1/2) 100 _).2.2.1 _ ?_ ?_
  · simp
  · norm_num

/-! ### C2 — text-layer coordinate transform -/

/-- C2 (counterexample): the claim states the text coordinates use the
converter's configured DPI, but `_process_easyocr_results` hard-codes
`dpi = 300`.  With a converter configured at 150 DPI, a span whose box has
`min(x) = 100` is placed at `x = 100·(72/300) = 24`, not at
`100·(72/150) = 48` as the claim requires. -/
theorem text_layer_ignores_configured_dpi :
    effectiveEmbedDpi ⟨150, 1/2⟩ = 150
    ∧ (processEasyocrResults (1/2 : ℚ) 1000
        [⟨⟨(100, 40), (100, 40), (100, 40), (100, 40)⟩, "hola", 9/10⟩]).map
          TextElement.x = [24]
    ∧ (24 : ℚ) ≠ 100 * (72 / ((effectiveEmbedDpi ⟨150, 1/2⟩ : ℕ) : ℚ)) := by
  refine ⟨rfl, ?_, ?_⟩
  · have hkeep : (decide ((1 : ℚ)/2 ≤ (9 : ℚ)/10)) = true :=
      decide_eq_true_eq.mpr (by norm_num)
    simp only [processEasyocrResults, List.filter, hkeep, List.map]
    simp only [spanToTextElement, easyocrScaleFactor, OcrBBox.minX, min_self]
    norm_num
  · simp only [effectiveEmbedDpi]
    norm_num

/-- C2 (amended): every placed span's coordinates are computed with the
fixed scale `72/300` — `x = min(xCoords)·(72/300)` and
`y = (imageHeightPx − max(yCoords))·(72/300)`, the Y-flip converting
top-left image coordinates into bottom-left page coordinates; this agrees
with the claim's `72/dpi` formula exactly when the converter's configured
DPI is 300. -/
theorem text_layer_coordinates (cfg : PdfConverterConfig) (imgH : ℚ)
    (results : List OcrSpan) (r : OcrSpan) (hr : r ∈ results)
    (hc : cfg.ocrConfidence ≤ r.confidence) :
    spanToTextElement imgH r ∈ processEasyocrResults cfg.ocrConfidence imgH results
    ∧ (spanToTextElement imgH r).x = r.bbox.minX * (72 / 300)
    ∧ (spanToTextElement imgH r).y = (imgH - r.bbox.maxY) * (72 / 300)
    ∧ (effectiveEmbedDpi cfg = 300 →
        (spanToTextElement imgH r).x
          = r.bbox.minX * (72 / ((effectiveEmbedDpi cfg : ℕ) : ℚ))
        ∧ (spanToTextElement imgH r).y
          = (imgH - r.bbox.maxY) * (72 / ((effectiveEmbedDpi cfg : ℕ) : ℚ))) := by
  refine ⟨?_, rfl, rfl, ?_⟩
  · exact (ocr_confidence_threshold cfg.ocrConfidence imgH results).2.2.1 r hr hc
  · intro h300
    rw [h300]
    exact ⟨rfl, rfl⟩

/-- C2 (witness): the amended theorem applied to a converter configured at
300 DPI and a single span of confidence 9/10 against threshold 1/2. -/
theorem text_layer_coordinates_witness :
    (spanToTextElement 1000 ⟨⟨(100, 40), (100, 40), (100, 40), (100, 40)⟩, "a", 9/10⟩).x
      = (OcrBBox.mk (100, 40) (100, 40) (100, 40) (100, 40)).minX * (72 / 300) := by
  have h := text_layer_coordinates ⟨300, 1/2⟩ 1000
    [⟨⟨(100, 40), (100, 40), (100, 40), (100, 40)⟩, "a", 9/10⟩]
    ⟨⟨(100, 40), (100, 40), (100, 40), (100, 40)⟩, "a", 9/10⟩
    (by simp) (by norm_num)
  exact h.2.1

/-! ### C8 — page dimensions -/

/-- C8 (counterexample): the claim states the page always matches the source
image's pixel dimensions at the configured DPI, but
`_create_pdf_with_easyocr` first downscales any image exceeding 2048 px:
a 4096×2048 image at 300 DPI yields a page of 2048·(72/300) by
1024·(72/300) points, not 4096·(72/300) by 2048·(72/300). -/
theorem page_size_capped_at_2048 :
    pdfPageSize ⟨300, 1/2⟩ 4096 2048
      = ((2048 : ℚ) * (72 / 300), (1024 : ℚ) * (72 / 300))
    ∧ pdfPageSize ⟨300, 1/2⟩ 4096 2048
      ≠ ((4096 : ℚ) * (72 / 300), (2048 : ℚ) * (72 / 300)) := by
  have hres : ocrResize 4096 2048 = (2048, 1024) := by
    simp only [ocrResize]
    rw [if_pos (by norm_num)]
    rw [min_def]
    norm_num
    constructor <;> rfl
  constructor
  · simp only [pdfPageSize, hres, effectiveEmbedDpi]
    norm_num
  · simp only [pdfPageSize, hres, effectiveEmbedDpi]
    intro hcontra
    rw [Prod.ext_iff] at hcontra
    have := hcontra.1
    norm_num at this

/-- C8 (amended): for images whose dimensions do not exceed the 2048-px OCR
cap, the page is exactly `width·(72/dpi) × height·(72/dpi)` at the
converter's configured DPI (a zero/absent configured DPI falls back
to 300). -/
theorem page_size_matches_image (cfg : PdfConverterConfig) (w h : ℕ)
    (hw : w ≤ 2048) (hh : h ≤ 2048) :
    pdfPageSize cfg w h
      = ((w : ℚ) * (72 / ((effectiveEmbedDpi cfg : ℕ) : ℚ)),
         (h : ℚ) * (72 / ((effectiveEmbedDpi cfg : ℕ) : ℚ)))
    ∧ (cfg.embedTargetDpi ≠ 0 → effectiveEmbedDpi cfg = cfg.embedTargetDpi) := by
  constructor
  · have hres : ocrResize w h = (w, h) := by
      simp only [ocrResize]
      rw [if_neg (by omega)]
    simp only [pdfPageSize, hres]
  · intro hne
    simp [effectiveEmbedDpi, hne]

/-- C8 (witness): the amended theorem applied to a 100×50 image at
300 configured DPI. -/
theorem page_size_matches_image_witness :
    pdfPageSize ⟨300, 1/2⟩ 100 50
      = ((100 : ℚ) * (72 / ((effectiveEmbedDpi ⟨300, 1/2⟩ : ℕ) : ℚ)),
         (50 : ℚ) * (72 / ((effectiveEmbedDpi ⟨300, 1/2⟩ : ℕ) : ℚ))) :=
  (page_size_matches_image ⟨300, 1/2⟩ 100 50 (by norm_num) (by norm_num)).1

/-! ### Orchestrator: shared lemmas about `_process_subfolder` -/

/-- Closed form of one loop-body step: a validated task contributes exactly
one recorded outcome and one counter increment; a skipped task only bumps
the failed counter. -/
theorem processTask_spec (env : ConvEnv) (ow : Bool) (st : SubfolderState)
    (t : ConvTask) :
    processTask env ow st t =
      if taskValidated env ow t then
        { successful := st.successful + (if (env.convert t).isOk then 1 else 0)
          failed := st.failed + (if (env.convert t).isOk then 0 else 1)
          results := st.results ++ [taskOutcome env t]
          invoked := st.invoked ++ [t] }
      else { st with failed := st.failed + 1 } := by
  by_cases hv : taskValidated env ow t <;>
    cases h : env.convert t <;>
      simp [processTask, taskOutcome, ConvOutcome.isOk, hv, h]

/-- Closed form of the whole task loop. -/
theorem foldl_processTask (env : ConvEnv) (ow : Bool) (l : List ConvTask) :
    ∀ st : SubfolderState,
      l.foldl (processTask env ow) st =
        { successful := st.successful + succCount env ow l
          failed := st.failed + failCount env ow l
          results := st.results ++ taskRecords env ow l
          invoked := st.invoked ++ l.filter (taskValidated env ow) } := by
  induction l with
  | nil =>
      intro st
      simp [succCount, failCount, taskRecords]
  | cons t ts ih =>
      intro st
      have hsc : succCount env ow (t :: ts)
          = succCount env ow ts
            + (if taskValidated env ow t && (env.convert t).isOk then 1 else 0) :=
        List.countP_cons _ _ _
      have hfc : failCount env ow (t :: ts)
          = failCount env ow ts
            + (if !(taskValidated env ow t && (env.convert t).isOk) then 1 else 0) :=
        List.countP_cons _ _ _
      have htr : taskRecords env ow (t :: ts)
          = (if taskValidated env ow t then [taskOutcome env t] else [])
            ++ taskRecords env ow ts := by
        unfold taskRecords
        rw [List.filter_cons]
        by_cases hv : taskValidated env ow t <;> simp [hv]
      have hfl : (t :: ts).filter (taskValidated env ow)
          = (if taskValidated env ow t then [t] else [])
            ++ ts.filter (taskValidated env ow) := by
        rw [List.filter_cons]
        by_cases hv : taskValidated env ow t <;> simp [hv]
      rw [List.foldl_cons, processTask_spec]
      by_cases hv : taskValidated env ow t
      · rw [if_pos hv, ih]
        simp only [SubfolderState.mk.injEq]
        refine ⟨?_, ?_, ?_, ?_⟩
        · rw [hsc]
          by_cases hok : (env.convert t).isOk <;> simp [hok, hv] <;> omega
        · rw [hfc]
          by_cases hok : (env.convert t).isOk <;> simp [hok, hv] <;> omega
        · rw [htr, if_pos hv, List.append_assoc]
        · rw [hfl, if_pos hv, List.append_assoc]
      · rw [if_neg hv, ih]
        simp only [SubfolderState.mk.injEq]
        refine ⟨?_, ?_, ?_, ?_⟩
        · rw [hsc]
          simp [hv]
        · rw [hfc]
          simp [hv]
          omega
        · rw [htr, if_neg hv, List.nil_append]
        · rw [hfl, if_neg hv, List.nil_append]

/-- Successful and failed counters partition the task list. -/
theorem succCount_add_failCount (env : ConvEnv) (ow : Bool)
    (l : List ConvTask) :
    succCount env ow l + failCount env ow l = l.length := by
  unfold succCount failCount
  induction l with
  | nil => simp
  | cons t ts ih =>
      rw [List.countP_cons, List.countP_cons, List.length_cons]
      by_cases h : (taskValidated env ow t && (env.convert t).isOk) = true
      · rw [if_pos h, if_neg (by simp [h])]
        omega
      · have h' : (taskValidated env ow t && (env.convert t).isOk) = false := by
          cases hx : (taskValidated env ow t && (env.convert t).isOk)
          · rfl
          · exact absurd hx h
        rw [if_neg h, if_pos (by rw [h']; rfl)]
        omega

/-- Size of the task matrix. -/
theorem taskMatrix_length (files fmts : List String) :
    (taskMatrix files fmts).length = files.length * fmts.length := by
  unfold taskMatrix
  induction files with
  | nil => simp
  | cons f fs ih =>
      simp only [List.flatMap_cons, List.length_append, List.length_map, ih,
        List.length_cons]
      ring

/-- Closed form of `_process_subfolder` on a non-empty file list. -/
theorem processSubfolder_spec (env : ConvEnv) (ow : Bool)
    (files fmts : List String) (h : files ≠ []) :
    processSubfolder env ow files fmts =
      { success := true, error := none, files_processed := files.length
        conversions_successful := succCount env ow (taskMatrix files fmts)
        conversions_failed := failCount env ow (taskMatrix files fmts)
        results := taskRecords env ow (taskMatrix files fmts)
        invoked := (taskMatrix files fmts).filter (taskValidated env ow) } := by
  unfold processSubfolder
  rw [if_neg (by simpa using h), foldl_processTask]
  simp

/-- The recorded outcome of a task carries that task's file and format. -/
theorem taskOutcome_identity (env : ConvEnv) (t : ConvTask) :
    (taskOutcome env t).input = t.file ∧ (taskOutcome env t).fmt = t.fmt := by
  cases h : env.convert t <;> simp [taskOutcome, h]

/-- Counting helper: if a predicate holds everywhere on a duplicate-free list
except at one member, it counts all elements but that one. -/
theorem countP_all_but_one {α : Type} (t0 : α) (p : α → Bool) :
    ∀ l : List α, t0 ∈ l → l.Nodup → p t0 = false →
      (∀ t ∈ l, t ≠ t0 → p t = true) → l.countP p = l.length - 1 := by
  intro l
  induction l with
  | nil => intro hm; cases hm
  | cons a as ih =>
      intro hm hn hp0 hp
      rw [List.countP_cons, List.length_cons]
      rcases List.mem_cons.mp hm with rfl | hmem
      · have hnotin : t0 ∉ as := (List.nodup_cons.mp hn).1
        have hall : ∀ t ∈ as, p t = true := fun t ht =>
          hp t (List.mem_cons_of_mem _ ht) (fun he => hnotin (he ▸ ht))
        rw [hp0, if_neg (by simp), List.countP_eq_length.mpr hall]
        omega
      · have ha : a ≠ t0 := fun he =>
          (List.nodup_cons.mp hn).1 (he ▸ hmem)
        have hpa : p a = true := hp a (List.mem_cons_self a as) ha
        have hlen : 0 < as.length := List.length_pos.mpr (List.ne_nil_of_mem hmem)
        rw [hpa, if_pos rfl,
          ih hmem (List.nodup_cons.mp hn).2 hp0
            (fun t ht hne => hp t (List.mem_cons_of_mem _ ht) hne)]
        omega

/-- Closed form of the folder loop of `convert_directory`. -/
theorem foldl_folderStep (env : ConvEnv) (ow : Bool) (fmts : List String)
    (structOk : String → Bool) (folders : List FolderSpec) :
    ∀ acc,
      folders.foldl (folderStep env ow fmts structOk) acc =
        (acc.1 ++ (folders.filter (fun fs => structOk fs.name)).map
            (fun fs => (fs.name, processSubfolder env ow fs.files fmts)),
         acc.2 ++ (folders.filter (fun fs => !structOk fs.name)).map
            (fun fs => (fs.name, ["Error creando estructura de salida"]))) := by
  induction folders with
  | nil =>
      intro acc
      simp
  | cons fs rest ih =>
      intro acc
      rw [List.foldl_cons, List.filter_cons, List.filter_cons]
      by_cases h : structOk fs.name
      · rw [show folderStep env ow fmts structOk acc fs
            = (acc.1 ++ [(fs.name, processSubfolder env ow fs.files fmts)], acc.2) by
          simp [folderStep, h]]
        rw [ih]
        simp [h, List.append_assoc]
      · rw [show folderStep env ow fmts structOk acc fs
            = (acc.1, acc.2 ++ [(fs.name, ["Error creando estructura de salida"])]) by
          simp [folderStep, h]]
        rw [ih]
        simp [h, List.append_assoc]

/-- `convert_directory` in closed form: every folder lands either in the
subfolder results (structure created) or in the error report (structure
creation failed); no folder is dropped. -/
theorem convertDirectory_spec (env : ConvEnv) (ow : Bool)
    (structOk : String → Bool) (folders : List FolderSpec)
    (fmts : List String) :
    convertDirectory env ow structOk folders fmts =
      generateFinalResult
        ((folders.filter (fun fs => structOk fs.name)).map
          (fun fs => (fs.name, processSubfolder env ow fs.files fmts)))
        ((folders.filter (fun fs => !structOk fs.name)).map
          (fun fs => (fs.name, ["Error creando estructura de salida"]))) := by
  unfold convertDirectory
  rw [foldl_folderStep]
  simp

/-! ### C1 — one outcome per task -/

/-- C1 (counterexample): the claim states every folder records exactly N×M
`ConversionOutcome`s including skipped tasks.  With one file, one format,
an already-existing artifact and `overwrite_existing = false`, the task is
skipped: the failed counter becomes 1 but no outcome is recorded, so 0
outcomes exist instead of the claimed 1×1 = 1. -/
theorem skipped_task_outcome_missing :
    (processSubfolder
        ⟨fun _ => true, fun _ => true, fun _ => "out.pdf", fun _ => ConvOutcome.ok⟩
        false ["a.tif"] ["PDF"]).results.length = 0
    ∧ (processSubfolder
        ⟨fun _ => true, fun _ => true, fun _ => "out.pdf", fun _ => ConvOutcome.ok⟩
        false ["a.tif"] ["PDF"]).conversions_failed = 1
    ∧ ["a.tif"].length * ["PDF"].length = 1
    ∧ (processSubfolder
        ⟨fun _ => true, fun _ => true, fun _ => "out.pdf", fun _ => ConvOutcome.ok⟩
        false ["a.tif"] ["PDF"]).results.length
      ≠ ["a.tif"].length * ["PDF"].length := by
  refine ⟨by decide, by decide, by decide, by decide⟩

/-- C1 (amended): for a non-empty folder the success and failure counters
always sum to N×M, and the recorded outcomes are exactly one per task that
passes output-path validation (succeeded, failed or raised) — tasks skipped
because the artifact already exists are counted as failed but produce no
outcome record. -/
theorem conversion_outcome_recording (env : ConvEnv) (ow : Bool)
    (files fmts : List String) (h : files ≠ []) :
    (processSubfolder env ow files fmts).conversions_successful
        + (processSubfolder env ow files fmts).conversions_failed
      = files.length * fmts.length
    ∧ (processSubfolder env ow files fmts).results
      = taskRecords env ow (taskMatrix files fmts)
    ∧ (processSubfolder env ow files fmts).results.length
      = ((taskMatrix files fmts).filter (taskValidated env ow)).length := by
  rw [processSubfolder_spec env ow files fmts h]
  refine ⟨?_, rfl, ?_⟩
  · rw [succCount_add_failCount, taskMatrix_length]
  · simp [taskRecords]

/-- C1 (witness): the amended theorem at one file and two formats. -/
theorem conversion_outcome_recording_witness :
    (processSubfolder
        ⟨fun _ => false, fun _ => true, fun _ => "out.pdf", fun _ => ConvOutcome.ok⟩
        false ["a.tif"] ["JPGHIGH", "PDF"]).conversions_successful
      + (processSubfolder
        ⟨fun _ => false, fun _ => true, fun _ => "out.pdf", fun _ => ConvOutcome.ok⟩
        false ["a.tif"] ["JPGHIGH", "PDF"]).conversions_failed = 2 := by
  have h := conversion_outcome_recording
    ⟨fun _ => false, fun _ => true, fun _ => "out.pdf", fun _ => ConvOutcome.ok⟩
    false ["a.tif"] ["JPGHIGH", "PDF"] (by decide)
  simpa using h.1

/-! ### C6 — skip-on-existing semantics -/

/-- C6 (counterexample): the claim states a task skipped because its artifact
already exists gets an outcome recorded with `success=false`.  With one file
whose artifact exists and `overwrite_existing = false`, the converter is
indeed not invoked and the failed counter becomes 1, but the recorded
outcome list stays empty — no `success=false` outcome exists. -/
theorem skipped_task_no_failure_record :
    (processSubfolder
        ⟨fun _ => true, fun _ => true, fun _ => "b.jpg", fun _ => ConvOutcome.ok⟩
        false ["b.tif"] ["JPGHIGH"]).invoked = []
    ∧ (processSubfolder
        ⟨fun _ => true, fun _ => true, fun _ => "b.jpg", fun _ => ConvOutcome.ok⟩
        false ["b.tif"] ["JPGHIGH"]).results = []
    ∧ (processSubfolder
        ⟨fun _ => true, fun _ => true, fun _ => "b.jpg", fun _ => ConvOutcome.ok⟩
        false ["b.tif"] ["JPGHIGH"]).conversions_failed = 1 := by
  refine ⟨by decide, by decide, by decide⟩

/-- C6 (amended): a task whose artifact already exists under
`overwrite_existing = false` fails validation, so its converter is never
invoked and no outcome record is stored for it — it is only counted in the
failed counter; with the overwrite flag set, an existing artifact does not
prevent conversion (validation then reduces to the writability probe). -/
theorem skip_and_overwrite_semantics (env : ConvEnv) (ow : Bool)
    (files fmts : List String) (h : files ≠ []) :
    (processSubfolder env ow files fmts).invoked
      = (taskMatrix files fmts).filter (taskValidated env ow)
    ∧ (∀ w : Bool, validateOutputPath true false w = false)
    ∧ (∀ w : Bool, validateOutputPath true true w = w)
    ∧ (∀ t ∈ taskMatrix files fmts, taskValidated env ow t = false →
        t ∉ (processSubfolder env ow files fmts).invoked
        ∧ ∀ rec ∈ (processSubfolder env ow files fmts).results,
            ¬(rec.input = t.file ∧ rec.fmt = t.fmt))
    ∧ (processSubfolder env ow files fmts).conversions_failed
      = failCount env ow (taskMatrix files fmts) := by
  rw [processSubfolder_spec env ow files fmts h]
  refine ⟨rfl, ?_, ?_, ?_, rfl⟩
  · intro w
    simp [validateOutputPath]
  · intro w
    simp [validateOutputPath]
  · intro t ht hval
    constructor
    · intro hmem
      have := (List.mem_filter.mp hmem).2
      rw [hval] at this
      cases this
    · rintro rec hrec ⟨hi, hf⟩
      unfold taskRecords at hrec
      rw [List.mem_map] at hrec
      obtain ⟨t', ht', hout⟩ := hrec
      have hval' := (List.mem_filter.mp ht').2
      have hid := taskOutcome_identity env t'
      have h1 : t'.file = t.file := by
        rw [← hid.1, hout, hi]
      have h2 : t'.fmt = t.fmt := by
        rw [← hid.2, hout, hf]
      have hteq : t' = t := by
        cases t
        cases t'
        rw [ConvTask.mk.injEq]
        exact ⟨h1, h2⟩
      rw [hteq, hval] at hval'
      cases hval'

/-- C6 (witness): the amended theorem at one file and one format with an
existing artifact and the overwrite flag cleared. -/
theorem skip_and_overwrite_semantics_witness :
    validateOutputPath true false true = false
    ∧ validateOutputPath true true true = true := by
  have h := skip_and_overwrite_semantics
    ⟨fun _ => true, fun _ => true, fun _ => "b.jpg", fun _ => ConvOutcome.ok⟩
    false ["b.tif"] ["JPGHIGH"] (by decide)
  exact ⟨h.2.1 true, h.2.2.1 true⟩

/-! ### C4 — single-exception isolation -/

/-- C4: if every task of a non-empty, duplicate-free task matrix passes
validation and exactly one task raises an exception while all others
succeed, then that exception is caught and recorded as a failed outcome
(with its message), every other task keeps its successful outcome, all
N×M outcomes are present, the folder result is still a success with failed
counter exactly 1, and a run containing this folder still processes every
folder and reports this folder's result. -/
theorem single_exception_isolation (env : ConvEnv) (ow : Bool)
    (files fmts : List String) (t0 : ConvTask) (msg : String)
    (hmem : t0 ∈ taskMatrix files fmts)
    (hnodup : (taskMatrix files fmts).Nodup)
    (hval : ∀ t ∈ taskMatrix files fmts, taskValidated env ow t = true)
    (hexc : env.convert t0 = ConvOutcome.exc msg)
    (hok : ∀ t ∈ taskMatrix files fmts, t ≠ t0 → env.convert t = ConvOutcome.ok) :
    (processSubfolder env ow files fmts).success = true
    ∧ (processSubfolder env ow files fmts).results
      = (taskMatrix files fmts).map (taskOutcome env)
    ∧ (processSubfolder env ow files fmts).results.length
      = files.length * fmts.length
    ∧ taskOutcome env t0
      = { input := t0.file, output := env.outPath t0, fmt := t0.fmt,
          success := false, error := some msg }
    ∧ (∀ t ∈ taskMatrix files fmts, t ≠ t0 →
        taskOutcome env t
          = { input := t.file, output := env.outPath t, fmt := t.fmt,
              success := true, error := none })
    ∧ (processSubfolder env ow files fmts).conversions_failed = 1
    ∧ (processSubfolder env ow files fmts).conversions_successful
      = files.length * fmts.length - 1
    ∧ (∀ structOk : String → Bool, ∀ name : String,
        ∀ pre post : List FolderSpec, structOk name = true →
        (convertDirectory env ow structOk
            (pre ++ FolderSpec.mk name files :: post) fmts).subfolders_processed
          = pre.length + 1 + post.length
        ∧ (name, processSubfolder env ow files fmts)
          ∈ (convertDirectory env ow structOk
              (pre ++ FolderSpec.mk name files :: post) fmts).subfolder_results) := by
  have hfiles : files ≠ [] := by
    rintro rfl
    simp [taskMatrix] at hmem
  have hrecs : taskRecords env ow (taskMatrix files fmts)
      = (taskMatrix files fmts).map (taskOutcome env) := by
    unfold taskRecords
    rw [List.filter_eq_self.mpr hval]
  have hsucc : succCount env ow (taskMatrix files fmts)
      = (taskMatrix files fmts).length - 1 := by
    apply countP_all_but_one t0 _ _ hmem hnodup
    · rw [hval t0 hmem, hexc]
      rfl
    · intro t ht hne
      rw [hval t ht, hok t ht hne]
      rfl
  have hlen : 0 < (taskMatrix files fmts).length :=
    List.length_pos.mpr (List.ne_nil_of_mem hmem)
  have hfail : failCount env ow (taskMatrix files fmts) = 1 := by
    have := succCount_add_failCount env ow (taskMatrix files fmts)
    omega
  rw [processSubfolder_spec env ow files fmts hfiles]
  refine ⟨rfl, hrecs, ?_, ?_, ?_, hfail, ?_, ?_⟩
  · rw [hrecs, List.length_map, taskMatrix_length]
  · simp [taskOutcome, hexc]
  · intro t ht hne
    simp [taskOutcome, hok t ht hne]
  · rw [hsucc, taskMatrix_length]
  · intro structOk name pre post hso
    rw [convertDirectory_spec]
    constructor
    · show ((((pre ++ FolderSpec.mk name files :: post).filter
          (fun fs => structOk fs.name)).map _).length
        + (((pre ++ FolderSpec.mk name files :: post).filter
          (fun fs => !structOk fs.name)).map _).length) = _
      rw [List.length_map, List.length_map,
        ← List.length_eq_length_filter_add]
      simp
      omega
    · show _ ∈ ((pre ++ FolderSpec.mk name files :: post).filter
        (fun fs => structOk fs.name)).map
          (fun fs => (fs.name, processSubfolder env ow fs.files fmts))
      rw [List.mem_map]
      refine ⟨FolderSpec.mk name files, ?_, ?_⟩
      · rw [List.mem_filter]
        refine ⟨?_, by simpa using hso⟩
        exact List.mem_append_right _ (List.mem_cons_self _ _)
      · show (name, processSubfolder env ow files fmts) = _
        rw [processSubfolder_spec env ow files fmts hfiles]

/-- C4 (witness): two files and one format, validation passing everywhere,
with only the second file's task raising. -/
theorem single_exception_isolation_witness :
    (processSubfolder
        ⟨fun _ => false, fun _ => true, fun _ => "o",
         fun t => if t.file = "b.tif" then ConvOutcome.exc "boom"
                  else ConvOutcome.ok⟩
        false ["a.tif", "b.tif"] ["PDF"]).conversions_failed = 1
    ∧ (processSubfolder
        ⟨fun _ => false, fun _ => true, fun _ => "o",
         fun t => if t.file = "b.tif" then ConvOutcome.exc "boom"
                  else ConvOutcome.ok⟩
        false ["a.tif", "b.tif"] ["PDF"]).conversions_successful = 1 := by
  have h := single_exception_isolation
    ⟨fun _ => false, fun _ => true, fun _ => "o",
     fun t => if t.file = "b.tif" then ConvOutcome.exc "boom"
              else ConvOutcome.ok⟩
    false ["a.tif", "b.tif"] ["PDF"] ⟨"b.tif", "PDF"⟩ "boom"
    (by decide) (by decide) (by decide) (by decide) (by decide)
  exact ⟨h.2.2.2.2.2.1, by simpa using h.2.2.2.2.2.2.1⟩

/-! ### C7 — run-level failure marking -/

/-- C7 (counterexample): the claim states a folder with zero successful
outcomes is marked failed in the run-level report.  With one folder whose
single conversion fails (zero successes), the run report counts zero
failed subfolders, one successful subfolder, and overall success — the
folder is not marked failed. -/
theorem zero_success_folder_not_marked_failed :
    (convertDirectory
        ⟨fun _ => false, fun _ => true, fun _ => "o", fun _ => ConvOutcome.fail⟩
        false (fun _ => true) [⟨"carpeta", ["a.tif"]⟩] ["PDF"]).total_conversions_successful = 0
    ∧ (convertDirectory
        ⟨fun _ => false, fun _ => true, fun _ => "o", fun _ => ConvOutcome.fail⟩
        false (fun _ => true) [⟨"carpeta", ["a.tif"]⟩] ["PDF"]).subfolders_failed = 0
    ∧ (convertDirectory
        ⟨fun _ => false, fun _ => true, fun _ => "o", fun _ => ConvOutcome.fail⟩
        false (fun _ => true) [⟨"carpeta", ["a.tif"]⟩] ["PDF"]).subfolders_successful = 1
    ∧ (convertDirectory
        ⟨fun _ => false, fun _ => true, fun _ => "o", fun _ => ConvOutcome.fail⟩
        false (fun _ => true) [⟨"carpeta", ["a.tif"]⟩] ["PDF"]).success = true := by
  refine ⟨by decide, by decide, by decide, by decide⟩

/-- C7 (amended): the run-level report counts as successful every folder
whose output structure was created — regardless of how many of its
conversions succeeded — and counts as failed exactly the folders whose
output-structure creation failed (the only per-folder error path);
processing never stops early: all folders are accounted for, and every
structurally-sound folder's result appears in the report. -/
theorem run_level_report (env : ConvEnv) (ow : Bool)
    (structOk : String → Bool) (folders : List FolderSpec)
    (fmts : List String) :
    (convertDirectory env ow structOk folders fmts).subfolders_processed
      = folders.length
    ∧ (convertDirectory env ow structOk folders fmts).subfolders_successful
      = (folders.filter (fun fs => structOk fs.name)).length
    ∧ (convertDirectory env ow structOk folders fmts).subfolders_failed
      = (folders.filter (fun fs => !structOk fs.name)).length
    ∧ (∀ fs ∈ folders, structOk fs.name = true →
        (fs.name, processSubfolder env ow fs.files fmts)
          ∈ (convertDirectory env ow structOk folders fmts).subfolder_results) := by
  rw [convertDirectory_spec]
  refine ⟨?_, ?_, ?_, ?_⟩
  · show (((folders.filter (fun fs => structOk fs.name)).map _).length
        + ((folders.filter (fun fs => !structOk fs.name)).map _).length)
      = folders.length
    rw [List.length_map, List.length_map, ← List.length_eq_length_filter_add]
  · show ((folders.filter (fun fs => structOk fs.name)).map _).length = _
    rw [List.length_map]
  · show (((folders.filter (fun fs => !structOk fs.name)).map
        (fun fs => (fs.name, ["Error creando estructura de salida"]))).filter
          (fun p => !p.2.isEmpty)).length = _
    rw [List.filter_eq_self.mpr, List.length_map]
    intro p hp
    rw [List.mem_map] at hp
    obtain ⟨fs, _, rfl⟩ := hp
    rfl
  · intro fs hfs hok
    show _ ∈ (folders.filter (fun fs => structOk fs.name)).map
      (fun fs => (fs.name, processSubfolder env ow fs.files fmts))
    rw [List.mem_map]
    exact ⟨fs, List.mem_filter.mpr ⟨hfs, by simpa using hok⟩, rfl⟩

/-- C7 (witness): the amended theorem at one structurally-sound folder whose
only conversion fails. -/
theorem run_level_report_witness :
    (convertDirectory
        ⟨fun _ => false, fun _ => true, fun _ => "o", fun _ => ConvOutcome.fail⟩
        false (fun _ => true) [⟨"carpeta", ["a.tif"]⟩] ["PDF"]).subfolders_processed = 1
    ∧ ("carpeta", processSubfolder
        ⟨fun _ => false, fun _ => true, fun _ => "o", fun _ => ConvOutcome.fail⟩
        false ["a.tif"] ["PDF"])
      ∈ (convertDirectory
        ⟨fun _ => false, fun _ => true, fun _ => "o", fun _ => ConvOutcome.fail⟩
        false (fun _ => true) [⟨"carpeta", ["a.tif"]⟩] ["PDF"]).subfolder_results := by
  have h := run_level_report
    ⟨fun _ => false, fun _ => true, fun _ => "o", fun _ => ConvOutcome.fail⟩
    false (fun _ => true) [⟨"carpeta", ["a.tif"]⟩] ["PDF"]
  exact ⟨by simpa using h.1,
    h.2.2.2 ⟨"carpeta", ["a.tif"]⟩ (by simp) rfl⟩

/-! ### C5 — MET aggregation references only successful outcomes -/

/-- Shape of one prepared result (case split on the entry's success flag). -/
theorem prepare_cons (size : String → ℕ) (e : FileInfoEntry)
    (es : List FileInfoEntry) :
    prepareConversionResults size (e :: es)
      = (if e.success then
           { input := e.input,
             output_files := [⟨e.fmt, e.output, size e.output⟩],
             success := true }
         else
           { input := e.input, output_files := [], success := false })
        :: prepareConversionResults size es := by
  unfold prepareConversionResults
  rw [List.map_cons]
  by_cases hs : e.success <;> simp [hs]

/-- The `(input, artifact)` pairs referenced for format `F` are exactly those
of the successful `F`-entries, in order. -/
theorem formatResults_prepare (size : String → ℕ)
    (filesInfo : List FileInfoEntry) (F : String) :
    formatResults (prepareConversionResults size filesInfo) F
      = (filesInfo.filter (fun e => e.success && e.fmt == F)).map
          (fun e => (e.input, ⟨e.fmt, e.output, size e.output⟩)) := by
  induction filesInfo with
  | nil => rfl
  | cons e es ih =>
      rw [prepare_cons, List.filter_cons]
      by_cases hs : e.success
      · rw [if_pos hs]
        by_cases hf : (e.fmt == F) = true
        · rw [if_pos (by rw [hs, hf]; rfl), List.map_cons]
          unfold formatResults
          rw [List.flatMap_cons]
          simp only [if_true]
          rw [List.filter_cons, if_pos hf]
          simp only [List.filter_nil, List.map_cons, List.map_nil]
          rw [List.singleton_append]
          unfold formatResults at ih
          rw [ih]
        · rw [if_neg (by simp [hs, hf])]
          unfold formatResults
          rw [List.flatMap_cons]
          simp only [if_true]
          rw [List.filter_cons, if_neg (by simp [hf])]
          simp only [List.filter_nil, List.map_nil, List.nil_append]
          unfold formatResults at ih
          rw [ih]
      · rw [if_neg hs, if_neg (by simp [hs])]
        unfold formatResults
        rw [List.flatMap_cons]
        simp only [if_false, Bool.false_eq_true, List.nil_append]
        unfold formatResults at ih
        rw [ih]

/-- `_has_files_for_format` over prepared results reduces to an existence
check on the raw entries. -/
theorem hasFilesForFormat_prepare (size : String → ℕ)
    (filesInfo : List FileInfoEntry) (F : String) :
    hasFilesForFormat (prepareConversionResults size filesInfo) F
      = filesInfo.any (fun e => e.success && e.fmt == F) := by
  induction filesInfo with
  | nil => rfl
  | cons e es ih =>
      rw [prepare_cons]
      unfold hasFilesForFormat
      rw [List.any_cons]
      unfold hasFilesForFormat at ih
      rw [ih, List.any_cons]
      by_cases hs : e.success
      · rw [if_pos hs, hs]
        simp
      · rw [if_neg hs]
        simp only [Bool.false_and]
        cases hx : e.success
        · simp
        · exact absurd hx hs

/-- C5 (code bug, evaluated at the failing input): with one successful PDF
conversion of `a.tif`, the pair-selection loop of `_create_format_met_file`
selects exactly `a.tif`, and a `PDF.xml` record is produced (and none is
produced when no success exists) — but the serializer on the live path,
`_generate_format_met_xml`, ignores the selected pairs and emits a fixed
placeholder template, so the written record references no source file at
all instead of referencing the successful source `a.tif`. -/
theorem met_record_placeholder_references_no_files :
    (formatResults (prepareConversionResults (fun _ => 7)
        [⟨"a.tif", "a.pdf", "PDF", true⟩]) "PDF").map Prod.fst = ["a.tif"]
    ∧ (formatMetForSubfolder (prepareConversionResults (fun _ => 7)
        [⟨"a.tif", "a.pdf", "PDF", true⟩]) "PDF" "carpeta").isSome = true
    ∧ (formatMetForSubfolder (prepareConversionResults (fun _ => 7)
        [⟨"a.tif", "a.pdf", "PDF", true⟩]) "PDF" "carpeta").map
          FormatMetXml.fileReferences = some []
    ∧ (formatMetForSubfolder (prepareConversionResults (fun _ => 7)
        [⟨"a.tif", "a.pdf", "PDF", true⟩]) "PDF" "carpeta").map
          FormatMetXml.fileReferences ≠ some ["a.tif"]
    ∧ formatMetForSubfolder (prepareConversionResults (fun _ => 7)
        [⟨"b.tif", "b.pdf", "PDF", false⟩]) "PDF" "carpeta" = none := by
  refine ⟨by decide, by decide, by decide, by decide, by decide⟩

/-! ### C3 — consolidation plan lemmas -/

/-- Totality of the lower-cased lexicographic comparison. -/
theorem lowerLeChars_total :
    ∀ xs ys : List Char, (lowerLeChars xs ys || lowerLeChars ys xs) = true := by
  intro xs
  induction xs with
  | nil =>
      intro ys
      simp [lowerLeChars]
  | cons x xs ih =>
      intro ys
      cases ys with
      | nil => simp [lowerLeChars]
      | cons y ys =>
          unfold lowerLeChars
          by_cases hxy : x < y
          · simp [hxy]
          · by_cases hyx : y < x
            · simp [hxy, hyx]
            · simp [hxy, hyx, ih ys]

/-- Transitivity of the lower-cased lexicographic comparison. -/
theorem lowerLeChars_trans :
    ∀ xs ys zs : List Char, lowerLeChars xs ys = true →
      lowerLeChars ys zs = true → lowerLeChars xs zs = true := by
  intro xs
  induction xs with
  | nil =>
      intro ys zs h1 h2
      simp [lowerLeChars]
  | cons x xs ih =>
      intro ys zs h1 h2
      cases ys with
      | nil => simp [lowerLeChars] at h1
      | cons y ys =>
          cases zs with
          | nil => simp [lowerLeChars] at h2
          | cons z zs =>
              unfold lowerLeChars at h1 h2 ⊢
              by_cases hxy : x < y
              · by_cases hyz : y < z
                · rw [if_pos (lt_trans hxy hyz)]
                · rw [if_neg hyz] at h2
                  by_cases hzy : z < y
                  · rw [if_pos hzy] at h2
                    cases h2
                  · have hyeq : y = z := le_antisymm (not_lt.mp hzy) (not_lt.mp hyz)
                    rw [← hyeq, if_pos hxy]
              · rw [if_neg hxy] at h1
                by_cases hyx : y < x
                · rw [if_pos hyx] at h1
                  cases h1
                · rw [if_neg hyx] at h1
                  have hxeq : x = y := le_antisymm (not_lt.mp hyx) (not_lt.mp hxy)
                  subst hxeq
                  by_cases hxz : x < z
                  · rw [if_pos hxz]
                  · rw [if_neg hxz] at h2 ⊢
                    by_cases hzx : z < x
                    · rw [if_pos hzx] at h2
                      cases h2
                    · rw [if_neg hzx] at h2 ⊢
                      exact ih ys zs h1 h2

/-- Totality of the file-name comparison used by the consolidator's sort. -/
theorem lowerLe_total (a b : String) : (lowerLe a b || lowerLe b a) = true :=
  lowerLeChars_total _ _

/-- Transitivity of the file-name comparison used by the consolidator's
sort. -/
theorem lowerLe_trans (a b c : String) :
    lowerLe a b = true → lowerLe b c = true → lowerLe a c = true :=
  lowerLeChars_trans _ _ _

/-- The slicer never produces anything from an empty list. -/
theorem chunkSlicesGo_nil {α : Type} (k fuel : ℕ) :
    chunkSlicesGo k fuel ([] : List α) = [] := by
  cases fuel <;> rfl

/-- Concatenating the slices gives back the original list: no element is
dropped or duplicated, and order is preserved. -/
theorem chunkSlicesGo_flatten {α : Type} (k : ℕ) (hk : 1 ≤ k) :
    ∀ (fuel : ℕ) (l : List α), l.length ≤ fuel →
      (chunkSlicesGo k fuel l).flatten = l := by
  intro fuel
  induction fuel with
  | zero =>
      intro l hl
      have hln : l = [] := List.eq_nil_of_length_eq_zero (by omega)
      subst hln
      rfl
  | succ n ih =>
      intro l hl
      cases l with
      | nil => rfl
      | cons x xs =>
          show (((x :: xs).take k :: chunkSlicesGo k n ((x :: xs).drop k)).flatten)
            = x :: xs
          rw [List.flatten_cons, ih ((x :: xs).drop k) ?_,
            List.take_append_drop]
          rw [List.length_drop]
          simp only [List.length_cons] at hl ⊢
          omega

/-- Same, at the fuel value used by `chunkSlices`. -/
theorem chunkSlices_flatten {α : Type} (k : ℕ) (hk : 1 ≤ k) (l : List α) :
    (chunkSlices k l).flatten = l :=
  chunkSlicesGo_flatten k hk l.length l le_rfl

/-- Every slice is non-empty and holds at most `k` elements. -/
theorem chunkSlicesGo_mem {α : Type} (k : ℕ) (hk : 1 ≤ k) :
    ∀ (fuel : ℕ) (l : List α), l.length ≤ fuel →
      ∀ c ∈ chunkSlicesGo k fuel l, c.length ≤ k ∧ c ≠ [] := by
  intro fuel
  induction fuel with
  | zero =>
      intro l hl c hc
      have hln : l = [] := List.eq_nil_of_length_eq_zero (by omega)
      subst hln
      cases hc
  | succ n ih =>
      intro l hl c hc
      cases l with
      | nil => cases hc
      | cons x xs =>
          rcases List.mem_cons.mp hc with rfl | hmem
          · constructor
            · rw [List.length_take]
              omega
            · obtain ⟨k', rfl⟩ := Nat.exists_eq_add_of_le hk
              simp [List.take_cons]
          · refine ih ((x :: xs).drop k) ?_ c hmem
            rw [List.length_drop]
            simp only [List.length_cons] at hl ⊢
            omega

/-- Every slice except possibly the last holds exactly `k` elements. -/
theorem chunkSlicesGo_dropLast {α : Type} (k : ℕ) (hk : 1 ≤ k) :
    ∀ (fuel : ℕ) (l : List α), l.length ≤ fuel →
      ∀ c ∈ (chunkSlicesGo k fuel l).dropLast, c.length = k := by
  intro fuel
  induction fuel with
  | zero =>
      intro l hl c hc
      have hln : l = [] := List.eq_nil_of_length_eq_zero (by omega)
      subst hln
      cases hc
  | succ n ih =>
      intro l hl c hc
      cases l with
      | nil => cases hc
      | cons x xs =>
          have hstep : chunkSlicesGo k (n + 1) (x :: xs)
              = (x :: xs).take k :: chunkSlicesGo k n ((x :: xs).drop k) := rfl
          rw [hstep] at hc
          cases hrest : chunkSlicesGo k n ((x :: xs).drop k) with
          | nil =>
              rw [hrest] at hc
              cases hc
          | cons r rs =>
              rw [hrest, List.dropLast_cons₂] at hc
              rcases List.mem_cons.mp hc with rfl | hmem
              · have hdrop : (x :: xs).drop k ≠ [] := by
                  intro hd
                  rw [hd, chunkSlicesGo_nil] at hrest
                  cases hrest
                have hklen : k ≤ (x :: xs).length := by
                  by_contra hgt
                  exact hdrop (List.drop_eq_nil_of_le (by omega))
                rw [List.length_take]
                omega
              · have := ih ((x :: xs).drop k) ?_ c (by rw [hrest]; exact hmem)
                · exact this
                · rw [List.length_drop]
                  simp only [List.length_cons] at hl ⊢
                  omega

/-- C3: the consolidation plan sorts the folder's files ascending by
lower-cased name, computes the chunk size `k = max(1, ⌊maxSizeMB / 3⌋)` from
the fixed 3 MB-per-file estimate, and then: concatenating the planned
outputs' contents gives back exactly the sorted list (order-preserving, each
input in exactly one output); when `k` covers all files the plan is the
single `<folder>_consolidated.pdf` holding every file in sorted order;
otherwise the outputs are named `<folder>_01.pdf`, `<folder>_02.pdf`, …,
every chunk is non-empty with at most `k` files, and every chunk except
possibly the last has exactly `k` files. -/
theorem consolidation_plan (folder : String) (maxSizeMB : ℕ)
    (files : List String) (h : files ≠ []) :
    calculateFilesPerPdf maxSizeMB = max 1 (maxSizeMB / 3)
    ∧ (List.mergeSort files lowerLe).Perm files
    ∧ List.Pairwise (fun a b => lowerLe a b = true) (List.mergeSort files lowerLe)
    ∧ ((consolidateProcess folder maxSizeMB files).map Prod.snd).flatten
      = List.mergeSort files lowerLe
    ∧ ((List.mergeSort files lowerLe).length ≤ calculateFilesPerPdf maxSizeMB →
        consolidateProcess folder maxSizeMB files
          = [(folder ++ "_consolidated.pdf", List.mergeSort files lowerLe)])
    ∧ (calculateFilesPerPdf maxSizeMB < (List.mergeSort files lowerLe).length →
        (consolidateProcess folder maxSizeMB files).map Prod.fst
          = (List.range (consolidateProcess folder maxSizeMB files).length).map
              (fun i => folder ++ "_" ++ padTwo (i + 1) ++ ".pdf")
        ∧ (∀ c ∈ (consolidateProcess folder maxSizeMB files).map Prod.snd,
            c.length ≤ calculateFilesPerPdf maxSizeMB ∧ c ≠ [])
        ∧ (∀ c ∈ ((consolidateProcess folder maxSizeMB files).map
              Prod.snd).dropLast,
            c.length = calculateFilesPerPdf maxSizeMB)) := by
  have hk : 1 ≤ calculateFilesPerPdf maxSizeMB := le_max_left _ _
  have hperm : (List.mergeSort files lowerLe).Perm files :=
    List.mergeSort_perm files lowerLe
  have hsne : List.mergeSort files lowerLe ≠ [] := by
    intro hnil
    refine h (List.Perm.eq_nil ?_)
    rw [← hnil]
    exact hperm.symm
  have hsortne : (List.mergeSort files lowerLe).isEmpty = false := by
    cases hx : List.mergeSort files lowerLe
    · exact absurd hx hsne
    · rfl
  have hsnd : (((chunkSlices (calculateFilesPerPdf maxSizeMB)
          (List.mergeSort files lowerLe)).enum.map
            (fun ic => (folder ++ "_" ++ padTwo (ic.1 + 1) ++ ".pdf", ic.2))).map
              Prod.snd)
        = chunkSlices (calculateFilesPerPdf maxSizeMB)
            (List.mergeSort files lowerLe) := by
    rw [List.map_map]
    have hcomp : (Prod.snd ∘ fun ic : ℕ × List String =>
        (folder ++ "_" ++ padTwo (ic.1 + 1) ++ ".pdf", ic.2)) = Prod.snd := by
      funext ic
      rfl
    rw [hcomp, List.enum_map_snd]
  refine ⟨rfl, hperm,
    List.sorted_mergeSort lowerLe_trans lowerLe_total files, ?_, ?_, ?_⟩
  · unfold consolidateProcess consolidatePlan
    rw [hsortne]
    simp only [Bool.false_eq_true, if_false]
    by_cases hle : (List.mergeSort files lowerLe).length
        ≤ calculateFilesPerPdf maxSizeMB
    · rw [if_pos hle]
      simp
    · rw [if_neg hle, hsnd]
      exact chunkSlices_flatten _ hk _
  · intro hle
    unfold consolidateProcess consolidatePlan
    rw [hsortne]
    simp only [Bool.false_eq_true, if_false]
    rw [if_pos hle]
  · intro hlt
    have hplan : consolidateProcess folder maxSizeMB files
        = (chunkSlices (calculateFilesPerPdf maxSizeMB)
            (List.mergeSort files lowerLe)).enum.map
              (fun ic => (folder ++ "_" ++ padTwo (ic.1 + 1) ++ ".pdf", ic.2)) := by
      unfold consolidateProcess consolidatePlan
      rw [hsortne]
      simp only [Bool.false_eq_true, if_false]
      rw [if_neg (by omega)]
    refine ⟨?_, ?_, ?_⟩
    · rw [hplan, List.map_map, List.length_map]
      have h1 : (Prod.fst ∘ fun ic : ℕ × List String =>
          (folder ++ "_" ++ padTwo (ic.1 + 1) ++ ".pdf", ic.2))
          = (fun i => folder ++ "_" ++ padTwo (i + 1) ++ ".pdf") ∘ Prod.fst := by
        funext ic
        rfl
      rw [h1, ← List.map_map, List.enum_map_fst, List.enum_length]
    · intro c hc
      rw [hplan, hsnd] at hc
      exact chunkSlicesGo_mem _ hk _ _ le_rfl c hc
    · intro c hc
      rw [hplan, hsnd] at hc
      exact chunkSlicesGo_dropLast _ hk _ _ le_rfl c hc

unseal List.merge List.mergeSort in
/-- C3 (witness): three files and a 30 MB budget: `k = 10` covers all three,
so the plan is one consolidated output holding the files in ascending
lower-cased name order. -/
theorem consolidation_plan_witness :
    consolidateProcess "carp" 30 ["b.tif", "a.tif", "c.tif"]
      = [("carp_consolidated.pdf", ["a.tif", "b.tif", "c.tif"])] := by
  have h := consolidation_plan "carp" 30 ["b.tif", "a.tif", "c.tif"] (by decide)
  have hs := h.2.2.2.2.1 (by decide)
  rw [hs]
  decide
